import Mathlib

/-!
Verification development for the Broadcom Bluetooth debug tool
(`tools/brcm_bt_debugtool/brcm_bt/brcm_bt.py`).

Bytes are modelled as `Nat` (each value reduced mod 256 by the packers),
byte strings as `List Nat`.  Stateful pipeline code is modelled as explicit
state-passing functions; socket/queue interaction is modelled by passing the
stream of received packets (resp. a response oracle) as an argument.
-/

namespace BrcmBt

/-! ### Byte codecs (pwntools `p8`/`p16`/`p32`/`u32`, little-endian) -/

def p8 (n : Nat) : List Nat := [n % 256]

def p16 (n : Nat) : List Nat := [n % 256, n / 256 % 256]

def p32 (n : Nat) : List Nat :=
  [n % 256, n / 256 % 256, n / 65536 % 256, n / 16777216 % 256]

def u32 (bs : List Nat) : Nat :=
  bs.getD 0 0 + 256 * bs.getD 1 0 + 65536 * bs.getD 2 0 + 16777216 * bs.getD 3 0

/-! ### HCI frames

Modelled from the spec: the `hci` helper module is not part of the sources;
§3 of the spec gives the tagged data model {Command, Event, ACL, SCO}, and
`brcm_bt.py` only uses the `event_code`/`data` fields of events. -/

inductive HCIPacket where
  | command (opcode : Nat) (payload : List Nat)
  | event (event_code : Nat) (data : List Nat)
  | acl (handle : Nat) (data : List Nat)
  | sco (handle : Nat) (data : List Nat)
deriving DecidableEq

/-- Modelled from the spec: `hci.HCI.HCI_CMD`, the UART packet-type byte for
HCI commands, is 0x01 (spec §4.1 / §6: "type: u8 = 0x01 (HCI command)"). -/
def HCI_CMD : Nat := 0x01

/-! ### Send pipeline (`_sendThreadFunc`, lines 217-257)

For one task popped from the send queue the thread builds
`payload = p16(opcode) + p8(len(data)) + data` and
`out = p8(HCI_CMD) + p16(len(payload)) + payload`, writes `out` to the
inject socket, and then consumes its private event stream until it sees an
`HCI_Event` with `event_code == 0x0e` whose `data[1:3] == p16(opcode)`;
that event's `data` is put into the caller's one-slot rendezvous queue. -/

def buildInjectFrame (opcode : Nat) (data : List Nat) : List Nat :=
  let payload := p16 opcode ++ p8 data.length ++ data
  p8 HCI_CMD ++ p16 payload.length ++ payload

/-- The matching loop of `_sendThreadFunc`: scan the (send-thread scoped)
received-packet stream for the first Command-Complete event echoing
`opcode`; its data is the delivered response. -/
def sendThreadMatch (opcode : Nat) : List HCIPacket → Option (List Nat)
  | [] => none
  | HCIPacket.event ec data :: rest =>
      if ec = 0x0e ∧ (data.drop 1).take 2 = p16 opcode then some data
      else sendThreadMatch opcode rest
  | _ :: rest => sendThreadMatch opcode rest

/-- One-slot rendezvous queue (`Queue.Queue(1)` created by `sendHciCommand`):
the send thread performs at most one `put`, the caller one `get`. -/
def rendezvousGet (slot : Option (List Nat)) : Option (List Nat) := slot

/-- `sendHciCommand` (lines 571-581): enqueue the task, then block on the
rendezvous slot that `_sendThreadFunc` fills from the event stream. -/
def sendHciCommand (opcode : Nat) (_data : List Nat)
    (stream : List HCIPacket) : Option (List Nat) :=
  rendezvousGet (sendThreadMatch opcode stream)

/-- Wire format claimed by the spec for the inject direction:
`01 | op_lo op_hi | plen | params` with nothing else in between. -/
def specInjectFrame (opcode : Nat) (data : List Nat) : List Nat :=
  p8 0x01 ++ p16 opcode ++ p8 data.length ++ data

/-- Amended wire format: the code prepends, between the type byte and the
opcode, the total payload length as a little-endian u16. -/
def specInjectFrameAmended (opcode : Nat) (data : List Nat) : List Nat :=
  p8 0x01 ++ p16 (data.length + 3) ++ p16 opcode ++ p8 data.length ++ data

/-! ### Memory access layer (`readMem`, lines 595-625)

`readMem` issues vendor command 0xFC4D in chunks of at most 251 bytes.  The
controller's responses are modelled by an oracle mapping the requested
`(read_addr, blocksize)` to the Command-Complete payload bytes.  The loop
advances `read_addr`/`byte_counter` by the length of `response[4:]`.  The
result collects the issued requests, the statuses that were warned about
(`status != 0` at `response[3]`), and the accumulated output buffer.
`none` models an uncaught exception (a response shorter than 4 bytes makes
`ord(response[3])` raise) or divergence (fuel exhausted; each recursive
step performs one loop iteration, so `none` at every fuel bound means the
`while` loop never exits). -/

structure ReadChunk where
  addr : Nat
  blocksize : Nat
deriving DecidableEq

def readMemGo (oracle : Nat → Nat → List Nat) (address length : Nat) :
    Nat → Nat → Nat → Option (List ReadChunk × List Nat × List Nat)
  | 0, read_addr, _ =>
      if read_addr < address + length then none else some ([], [], [])
  | fuel + 1, read_addr, byte_counter =>
      if read_addr < address + length then
        -- bytes_left = length - byte_counter; blocksize = min bytes_left 251;
        -- response = sendHciCommand(0xfc4d, p32 read_addr ++ p8 blocksize);
        -- status = ord(response[3]); data = response[4:]
        match (oracle read_addr (min (length - byte_counter) 251))[3]? with
        | none => none
        | some status =>
          match readMemGo oracle address length fuel
              (read_addr +
                ((oracle read_addr (min (length - byte_counter) 251)).drop 4).length)
              (byte_counter +
                ((oracle read_addr (min (length - byte_counter) 251)).drop 4).length) with
          | none => none
          | some (reqs, warns, out) =>
              some (⟨read_addr, min (length - byte_counter) 251⟩ :: reqs,
                    (if status ≠ 0 then [status] else []) ++ warns,
                    (oracle read_addr (min (length - byte_counter) 251)).drop 4 ++ out)
      else some ([], [], [])

/-- `readMem`.  Each loop iteration consumes at least one byte of progress
whenever the response carries data, so `length` iterations always suffice
for a terminating run; the fuel only cuts off genuinely diverging runs. -/
def readMem (oracle : Nat → Nat → List Nat) (address length : Nat) :
    Option (List ReadChunk × List Nat × List Nat) :=
  readMemGo oracle address length length address 0

/-- The chunk requests `readMem` issues when every response carries a full
data block: greedy chunks of `min remaining 251` bytes.  The fuel argument
mirrors `readMemGo`'s. -/
def expectedChunksGo : Nat → Nat → Nat → List ReadChunk
  | 0, _, _ => []
  | fuel + 1, address, n =>
      if n = 0 then []
      else ⟨address, min n 251⟩ ::
        expectedChunksGo fuel (address + min n 251) (n - min n 251)

def expectedChunks (address n : Nat) : List ReadChunk :=
  expectedChunksGo n address n

/-- Status byte of the response an oracle gives for a chunk request. -/
def chunkStatus (oracle : Nat → Nat → List Nat) (c : ReadChunk) : Nat :=
  ((oracle c.addr c.blocksize)[3]?).getD 0

/-! ### writeMem (lines 627-651) and launchRam (lines 653-659)

`writeMem` chunks `data` into ≤251-byte pieces; each chunk is sent as
vendor command 0xFC4C with payload `p32 write_addr ++ chunk`; a response
whose byte 3 is nonzero aborts the loop with `False`.  The oracle maps
`(write_addr, chunk)` to the response bytes; the result records the issued
`(write_addr, chunk)` requests and the returned boolean. -/

def writeMemGo (oracle : Nat → List Nat → List Nat) (data : List Nat) :
    Nat → Nat → Nat → Option (List (Nat × List Nat) × Bool)
  | 0, _, byte_counter =>
      if byte_counter < data.length then none else some ([], true)
  | fuel + 1, write_addr, byte_counter =>
      if byte_counter < data.length then
        -- blocksize = min (len(data) - byte_counter) 251;
        -- chunk = data[byte_counter : byte_counter + blocksize]
        match (oracle write_addr
            ((data.drop byte_counter).take (min (data.length - byte_counter) 251)))[3]? with
        | none => none
        | some status =>
          if status ≠ 0 then
            some ([(write_addr,
                    (data.drop byte_counter).take (min (data.length - byte_counter) 251))],
                  false)
          else
            match writeMemGo oracle data fuel
                (write_addr + min (data.length - byte_counter) 251)
                (byte_counter + min (data.length - byte_counter) 251) with
            | none => none
            | some (reqs, ok) =>
                some ((write_addr,
                       (data.drop byte_counter).take (min (data.length - byte_counter) 251))
                        :: reqs,
                      ok)
      else some ([], true)

/-- `writeMem` advances by `blocksize ≥ 1` per iteration, so `data.length`
fuel always suffices. -/
def writeMem (oracle : Nat → List Nat → List Nat) (address : Nat)
    (data : List Nat) : Option (List (Nat × List Nat) × Bool) :=
  writeMemGo oracle data data.length address 0

/-- `launchRam`: single command 0xFC4E; returns `False` iff the status byte
`response[3]` is nonzero. -/
def launchRam (oracle : Nat → List Nat) (address : Nat) : Option Bool :=
  match (oracle address)[3]? with
  | none => none
  | some status => if status ≠ 0 then some false else some true

/-! ### patchRom (lines 661-689)

`patchRom` ignores the results of its `writeMem` calls; its effect is the
ordered list of `(address, bytes)` pairs passed to `writeMem`, which we
return.  `none` models the early `return False` for a patch that is not
exactly 4 bytes. -/

def patchRom (address : Nat) (patch : List Nat) :
    Option (List (Nat × List Nat)) :=
  if patch.length ≠ 4 then none
  else
    -- slot_dwords = [0xffffffff, 0xffffffff, 0xffffffff, 0x0000ffff, 0x00000000]
    -- slot = 113; target_dword = slot / 32; target_bit = slot % 32
    -- slot_dwords[target_dword] |= 1 << target_bit
    some [(0xd0000 + 113 * 4, patch),
          (0x310000 + 113 * 4, p32 (address >>> 2)),
          (0x310204 + (113 / 32) * 4,
           p32 ([0xffffffff, 0xffffffff, 0xffffffff, 0x0000ffff,
                 0x00000000].getD (113 / 32) 0 ||| (1 <<< (113 % 32))))]

/-! ### Receive pipeline queues (`_recvThreadFunc`, lines 190-208)

`Queue.Queue(maxsize)` is full iff `0 < maxsize ≤ qsize()`.  On ingress of
a record: if the primary queue is full it is drained completely
(`get(block=False)` until `Queue.Empty`), then the record is pushed with
`put(block=False)`, which drops it iff the queue is (still) full.  The
secondary queue gets a plain non-blocking `put`: on `Queue.Full` the record
is dropped and a warning logged (the `Bool` in the result). -/

def queueFull (maxsize : Nat) (items : List α) : Bool :=
  decide (0 < maxsize) && decide (maxsize ≤ items.length)

def primaryIngest (maxsize : Nat) (items : List α) (r : α) : List α :=
  if queueFull maxsize items then
    (if queueFull maxsize ([] : List α) then [] else [r])
  else
    (if queueFull maxsize items then items else items ++ [r])

def secondaryIngest (maxsize : Nat) (items : List α) (r : α) :
    List α × Bool :=
  if queueFull maxsize items then (items, true) else (items ++ [r], false)

/-! ### Snoop record timestamps (`_parse_time`, lines 115-126, and the
try/except at lines 181-184)

`_parse_time(t)` computes `datetime(2000,1,1) + (timedelta(microseconds=t)
- timedelta(microseconds=0x00E03AB44A676000))`.  The offset constant is
63114940800000000 μs = exactly 730497 days, which is 378 days more than
the 730119-day distance from the proleptic Gregorian 0001-01-01 to
2000-01-01, so the computed instant is 0001-01-01 00:00:00 plus
`t - 378 days`.  For an `i64` input the `timedelta`s cannot overflow
(|t| ≤ 2^63 μs ≈ 1.07e8 days < the 999999999-day `timedelta` bound); the
`datetime` addition raises `OverflowError` exactly when the result leaves
`datetime`'s range, years 1..9999 (0 .. 3652059 days − 1 μs), i.e. unless
378 days ≤ t < 3652437 days in microseconds:
32659200000000 ≤ t < 315570556800000000.  The result is represented as
microseconds relative to the 2000-01-01 epoch (`t` minus the offset). -/

def TIME_BETW_0_AND_2000_AD : Int := 0x00E03AB44A676000

/-- Smallest `time64` the `datetime` addition accepts: 378 days. -/
def DATETIME_MIN_TIME64 : Int := 32659200000000

/-- One past the largest `time64` the `datetime` addition accepts:
3652437 days (= 378 days + the 3652059 days of years 1..9999). -/
def DATETIME_MAX_TIME64 : Int := 315570556800000000

def parse_time (time : Int) : Option Int :=
  if DATETIME_MIN_TIME64 ≤ time ∧ time < DATETIME_MAX_TIME64 then
    some (time - TIME_BETW_0_AND_2000_AD)
  else none

/-- A snoop record as unpacked from the 24-byte header (`>IIIIq`) plus the
`inc_len` data bytes. -/
structure SnoopRecord where
  orig_len : Nat
  inc_len : Nat
  flags : Nat
  drops : Nat
  time64 : Int
  data : List Nat

/-- The tuple `record` built at line 186:
`(hci.parse_hci_packet(record_data), orig_len, inc_len, flags, drops,
parsed_time)`.  The packet parser lives in the external `hci` module and is
passed as a function. -/
def processRecord (parseHci : List Nat → HCIPacket) (rec : SnoopRecord) :
    HCIPacket × Nat × Nat × Nat × Nat × Option Int :=
  (parseHci rec.data, rec.orig_len, rec.inc_len, rec.flags, rec.drops,
   parse_time rec.time64)

/-- Timestamp field of a processed record. -/
def recordTime (r : HCIPacket × Nat × Nat × Nat × Nat × Option Int) :
    Option Int :=
  r.2.2.2.2.2

/-- Ingestion of one parsed record into the primary receive queue. -/
def recvIngest (parseHci : List Nat → HCIPacket) (maxsize : Nat)
    (primary : List (HCIPacket × Nat × Nat × Nat × Nat × Option Int))
    (rec : SnoopRecord) :
    List (HCIPacket × Nat × Nat × Nat × Nat × Option Int) :=
  primaryIngest maxsize primary (processRecord parseHci rec)

/-! ### LMP monitor poll (`_monitorThreadFunc`, lines 359-419)

`readMem` calls made by the monitor are modelled by a memory function
`mem : address → length → bytes`. -/

/-- Segment selection of one poll iteration (lines 373-389).  The caller
guarantees `lastIdx < curIdx` (otherwise the loop `continue`s). -/
def pollReadData (mem : Nat → Nat → List Nat) (base lastIdx curIdx : Nat) :
    List Nat :=
  -- currentCapturedPosition = curIdx & 0x1f; lastCapturedPosition = lastIdx & 0x1f
  if curIdx - lastIdx ≥ 32 then
    mem (base + 4) (32 * 32)
  else if lastIdx % 32 < curIdx % 32 then
    mem (base + 4 + (lastIdx % 32 + 1) * 32) ((curIdx % 32 - lastIdx % 32) * 32)
  else
    -- wrap around: tmp is read first, but the buffer is data ++ tmp
    mem (base + 4) ((curIdx % 32 + 1) * 32) ++
      mem (base + 4 + (lastIdx % 32 + 1) * 32) ((31 - lastIdx % 32) * 32)

/-- The wrap-around buffer order claimed by the spec: end-of-table segment
first, wrapped beginning segment second. -/
def specWrapBuffer (mem : Nat → Nat → List Nat) (base lastIdx curIdx : Nat) :
    List Nat :=
  mem (base + 4 + (lastIdx % 32 + 1) * 32) ((31 - lastIdx % 32) * 32) ++
    mem (base + 4) ((curIdx % 32 + 1) * 32)

/-- Ring entries (line 391):
`[(u32(data[i:i+4]), data[i+4:i+32]) for i in range(0, len(data), 32)]`. -/
def parseEntries (data : List Nat) : List (Nat × List Nat) :=
  (List.range ((data.length + 31) / 32)).map fun k =>
    (u32 ((data.drop (32 * k)).take 4), (data.drop (32 * k + 4)).take 28)

/-- Sort key (line 392): `entry[0] & 0x7FFFFFFF`, i.e. the low 31 bits. -/
def entryKey (e : Nat × List Nat) : Nat := e.1 % 0x80000000

/-- `entries.sort(key=lambda x: x[0] & 0x7FFFFFFF)`: Python's stable
ascending sort, modelled by stable `mergeSort`. -/
def sortEntries (es : List (Nat × List Nat)) : List (Nat × List Nat) :=
  es.mergeSort fun a b => entryKey a ≤ entryKey b

/-- Observable actions of the delivery loop (lines 401-419). -/
inductive MonEvent where
  | warnDropped (count : Nat)
  | warnOld (index lastIndex : Nat)
  | callback (lmpPacket : List Nat) (sendFromDevice : Bool) (index : Nat)
deriving DecidableEq

/-- LMP packet slicing (lines 405-411): `lmp_opcode = payload[4] >> 1`;
escape opcodes (≥ 0x7C) use `payload[5]` into the escape length table.
The two firmware length tables live in the external `fw` module and are
passed as functions. -/
def lmpPacketOf (lmpLengths lmpEscLengths : Nat → Nat) (payload : List Nat) :
    List Nat :=
  if payload.getD 4 0 / 2 ≥ 0x7C then
    (payload.drop 4).take (lmpEscLengths (payload.getD 5 0))
  else
    (payload.drop 4).take (lmpLengths (payload.getD 4 0 / 2))

/-- The delivery loop over the sorted entries (lines 401-419): for each
entry, warn about a gap (`index > last + 1`), warn about an old packet
(`index <= last`), invoke the callback — unconditionally — and set
`lastCapturedIndex = index`. -/
def deliverEntries (lmpLengths lmpEscLengths : Nat → Nat) :
    Nat → List (Nat × List Nat) → List MonEvent
  | _, [] => []
  | lastIdx, (tag, payload) :: rest =>
      ((if lastIdx + 1 < tag % 0x80000000 then
          [MonEvent.warnDropped (tag % 0x80000000 - lastIdx - 1)]
        else []) ++
       (if tag % 0x80000000 ≤ lastIdx then
          [MonEvent.warnOld (tag % 0x80000000) lastIdx]
        else []) ++
       [MonEvent.callback (lmpPacketOf lmpLengths lmpEscLengths payload)
          (Nat.testBit tag 31) (tag % 0x80000000)]) ++
      deliverEntries lmpLengths lmpEscLengths (tag % 0x80000000) rest

/-- One poll iteration's processing of an assembled data buffer:
parse the 32-byte ring entries, sort by sequence number, deliver. -/
def monitorBatch (lmpLengths lmpEscLengths : Nat → Nat) (lastIdx : Nat)
    (data : List Nat) : List MonEvent :=
  deliverEntries lmpLengths lmpEscLengths lastIdx
    (sortEntries (parseEntries data))

/-- The indices passed to the user callback, in delivery order. -/
def callbackIndices (evs : List MonEvent) : List Nat :=
  evs.filterMap fun e =>
    match e with
    | MonEvent.callback _ _ idx => some idx
    | _ => none

/-! ### Concrete inputs used by witnesses and counterexamples -/

/-- Full-block read oracle, status 0. -/
def oracleFull : Nat → Nat → List Nat :=
  fun _ bs => [0, 0, 0, 0] ++ List.replicate bs 0xab

/-- Full-block read oracle whose status byte is always 7. -/
def oracleStatus7 : Nat → Nat → List Nat :=
  fun _ bs => [0, 0, 0, 7] ++ List.replicate bs 0xab

/-- Read oracle returning only the 4-byte header, no data. -/
def oracleHeaderOnly : Nat → Nat → List Nat := fun _ _ => [0, 0, 0, 0]

/-- Read oracle always returning one data byte beyond the header. -/
def oracleProgress : Nat → Nat → List Nat := fun _ _ => [0, 0, 0, 0, 0x55]

/-- Write oracle whose status byte is always 5. -/
def writeOracleStatus5 : Nat → List Nat → List Nat := fun _ _ => [0, 0, 0, 5]

/-- Launch oracle whose status byte is 9. -/
def launchOracleStatus9 : Nat → List Nat := fun _ => [0, 0, 0, 9]

/-- Address-tagged memory: byte at `addr + i` is `(addr + i) % 256`. -/
def memTagged : Nat → Nat → List Nat :=
  fun addr len => (List.range len).map fun i => (addr + i) % 256

/-! ### Helper theorems -/

/-- C1 helper: a successfully delivered payload is the data of a
Command-Complete event (code 0x0E) from the stream whose bytes [1..3] echo
the sent opcode. -/
theorem sendThreadMatch_correlates (opcode : Nat) :
    ∀ (stream : List HCIPacket) (payload : List Nat),
      sendThreadMatch opcode stream = some payload →
      HCIPacket.event 0x0e payload ∈ stream ∧
        (payload.drop 1).take 2 = p16 opcode
  | [], payload => by simp [sendThreadMatch]
  | HCIPacket.event ec data :: rest, payload => by
      simp only [sendThreadMatch]
      split
      · rename_i h
        intro hsome
        obtain ⟨rfl, hop⟩ := h
        cases hsome
        exact ⟨List.mem_cons_self _ _, hop⟩
      · intro h
        obtain ⟨hmem, hop⟩ := sendThreadMatch_correlates opcode rest payload h
        exact ⟨List.mem_cons_of_mem _ hmem, hop⟩
  | HCIPacket.command a b :: rest, payload => by
      simp only [sendThreadMatch]
      intro h
      obtain ⟨hmem, hop⟩ := sendThreadMatch_correlates opcode rest payload h
      exact ⟨List.mem_cons_of_mem _ hmem, hop⟩
  | HCIPacket.acl a b :: rest, payload => by
      simp only [sendThreadMatch]
      intro h
      obtain ⟨hmem, hop⟩ := sendThreadMatch_correlates opcode rest payload h
      exact ⟨List.mem_cons_of_mem _ hmem, hop⟩
  | HCIPacket.sco a b :: rest, payload => by
      simp only [sendThreadMatch]
      intro h
      obtain ⟨hmem, hop⟩ := sendThreadMatch_correlates opcode rest payload h
      exact ⟨List.mem_cons_of_mem _ hmem, hop⟩

/-- Master lemma for `readMemGo` under a full-block oracle (every response
is exactly `blocksize + 4` bytes, arbitrary status byte): the loop runs to
completion, issuing exactly the greedy chunk requests, warning exactly on
the chunks whose status byte is nonzero, and accumulating `length - bc`
output bytes. -/
theorem readMemGo_fullBlocks (oracle : Nat → Nat → List Nat)
    (address length : Nat)
    (hlen : ∀ a bs, (oracle a bs).length = bs + 4) :
    ∀ fuel bc, length - bc ≤ fuel →
      ∃ out : List Nat,
        readMemGo oracle address length fuel (address + bc) bc =
          some (expectedChunksGo fuel (address + bc) (length - bc),
                ((expectedChunksGo fuel (address + bc) (length - bc)).map
                    (chunkStatus oracle)).filter (fun w => w ≠ 0),
                out) ∧
        out.length = length - bc := by
  intro fuel
  induction fuel with
  | zero =>
      intro bc hbc
      have h0 : length - bc = 0 := Nat.le_zero.mp hbc
      have hnlt : ¬ (address + bc < address + length) := by omega
      exact ⟨[], by simp [readMemGo, expectedChunksGo, hnlt], by simp [h0]⟩
  | succ fuel ih =>
      intro bc hbc
      by_cases hlt : bc < length
      · have hcond : address + bc < address + length := by omega
        have hrl := hlen (address + bc) (min (length - bc) 251)
        have h3 : 3 < (oracle (address + bc) (min (length - bc) 251)).length := by
          omega
        have hidx : (oracle (address + bc) (min (length - bc) 251))[3]? =
            some ((oracle (address + bc) (min (length - bc) 251))[3]) :=
          List.getElem?_eq_getElem h3
        have hdl : ((oracle (address + bc) (min (length - bc) 251)).drop 4).length
            = min (length - bc) 251 := by
          rw [List.length_drop, hrl]; omega
        obtain ⟨out, hrec, hreclen⟩ := ih (bc + min (length - bc) 251) (by omega)
        refine ⟨(oracle (address + bc) (min (length - bc) 251)).drop 4 ++ out,
                ?_, ?_⟩
        · rw [readMemGo, if_pos hcond, hidx, hdl,
              show address + bc + min (length - bc) 251 =
                address + (bc + min (length - bc) 251) from by omega,
              hrec]
          have hchunks : expectedChunksGo (fuel + 1) (address + bc) (length - bc) =
              ⟨address + bc, min (length - bc) 251⟩ ::
                expectedChunksGo fuel (address + (bc + min (length - bc) 251))
                  (length - (bc + min (length - bc) 251)) := by
            rw [expectedChunksGo, if_neg (by omega),
                show address + bc + min (length - bc) 251 =
                  address + (bc + min (length - bc) 251) from by omega,
                show length - bc - min (length - bc) 251 =
                  length - (bc + min (length - bc) 251) from by omega]
          have hst : chunkStatus oracle ⟨address + bc, min (length - bc) 251⟩ =
              (oracle (address + bc) (min (length - bc) 251))[3] := by
            simp [chunkStatus, hidx]
          rw [hchunks]
          simp only [List.map_cons, List.filter_cons, hst]
          by_cases hz : (oracle (address + bc) (min (length - bc) 251))[3] = 0 <;>
            simp [hz]
        · simp [hdl]
          omega
      · have h0 : length - bc = 0 := by omega
        have hnlt : ¬ (address + bc < address + length) := by omega
        refine ⟨[], ?_, by simp [h0]⟩
        simp [readMemGo, expectedChunksGo, hnlt, h0]

/-- Greedy chunking issues exactly `⌈n / 251⌉` requests. -/
theorem expectedChunksGo_length :
    ∀ fuel address n, n ≤ fuel →
      (expectedChunksGo fuel address n).length = (n + 250) / 251 := by
  intro fuel
  induction fuel with
  | zero =>
      intro address n hn
      have h0 : n = 0 := by omega
      simp [expectedChunksGo, h0]
  | succ fuel ih =>
      intro address n hn
      by_cases h0 : n = 0
      · simp [expectedChunksGo, h0]
      · rw [expectedChunksGo, if_neg h0]
        rw [List.length_cons, ih _ _ (by omega)]
        omega

/-- Every greedy chunk requests at most 251 bytes. -/
theorem expectedChunksGo_blocksize_le :
    ∀ fuel address n c, c ∈ expectedChunksGo fuel address n →
      c.blocksize ≤ 251 := by
  intro fuel
  induction fuel with
  | zero => intro address n c h; simp [expectedChunksGo] at h
  | succ fuel ih =>
      intro address n c h
      rw [expectedChunksGo] at h
      split at h
      · simp at h
      · rcases List.mem_cons.mp h with h | h
        · subst h; simp
        · exact ih _ _ _ h

/-- C10 helper: if every response carries at least one data byte beyond its
4-byte header, the loop makes ≥1 byte of progress per iteration and
`length` fuel suffices. -/
theorem readMemGo_terminates (oracle : Nat → Nat → List Nat)
    (address length : Nat)
    (hdata : ∀ a bs, 4 < (oracle a bs).length) :
    ∀ fuel bc, length - bc ≤ fuel →
      ∃ res, readMemGo oracle address length fuel (address + bc) bc = some res := by
  intro fuel
  induction fuel with
  | zero =>
      intro bc hbc
      have hnlt : ¬ (address + bc < address + length) := by omega
      exact ⟨([], [], []), by simp [readMemGo, hnlt]⟩
  | succ fuel ih =>
      intro bc hbc
      by_cases hlt : bc < length
      · have hcond : address + bc < address + length := by omega
        have h3 : 3 < (oracle (address + bc) (min (length - bc) 251)).length := by
          have := hdata (address + bc) (min (length - bc) 251); omega
        obtain ⟨status, hidx⟩ :
            ∃ s, (oracle (address + bc) (min (length - bc) 251))[3]? = some s :=
          ⟨_, List.getElem?_eq_getElem h3⟩
        have hd1 : 1 ≤ ((oracle (address + bc) (min (length - bc) 251)).drop 4).length := by
          rw [List.length_drop]
          have := hdata (address + bc) (min (length - bc) 251); omega
        obtain ⟨⟨reqs, warns, out⟩, hres⟩ :=
          ih (bc + ((oracle (address + bc) (min (length - bc) 251)).drop 4).length)
            (by omega)
        refine ⟨(⟨address + bc, min (length - bc) 251⟩ :: reqs,
                 (if status ≠ 0 then [status] else []) ++ warns,
                 (oracle (address + bc) (min (length - bc) 251)).drop 4 ++ out), ?_⟩
        rw [readMemGo, if_pos hcond, hidx,
            show address + bc +
                ((oracle (address + bc) (min (length - bc) 251)).drop 4).length =
              address + (bc +
                ((oracle (address + bc) (min (length - bc) 251)).drop 4).length)
              from by omega,
            hres]
      · have hnlt : ¬ (address + bc < address + length) := by omega
        exact ⟨([], [], []), by simp [readMemGo, hnlt]⟩

/-- C10 helper: a response with an empty data section leaves both loop
variables unchanged, so the identical request is re-issued forever; no
fuel bound produces a result. -/
theorem readMemGo_stuck (oracle : Nat → Nat → List Nat)
    (address length : Nat)
    (hdr : ∀ a bs, (oracle a bs).length = 4) :
    ∀ fuel bc, bc < length →
      readMemGo oracle address length fuel (address + bc) bc = none := by
  intro fuel
  induction fuel with
  | zero =>
      intro bc hbc
      simp [readMemGo, show address + bc < address + length from by omega]
  | succ fuel ih =>
      intro bc hbc
      have hcond : address + bc < address + length := by omega
      have h3 : 3 < (oracle (address + bc) (min (length - bc) 251)).length := by
        rw [hdr]; omega
      obtain ⟨status, hidx⟩ :
          ∃ s, (oracle (address + bc) (min (length - bc) 251))[3]? = some s :=
        ⟨_, List.getElem?_eq_getElem h3⟩
      have hd0 : ((oracle (address + bc) (min (length - bc) 251)).drop 4).length = 0 := by
        rw [List.length_drop, hdr]
      rw [readMemGo, if_pos hcond, hidx, hd0, Nat.add_zero, Nat.add_zero,
          ih bc hbc]

/-- C6 helper: `writeMem` aborts with `False` on the first chunk whose
status byte is nonzero, issuing no further requests. -/
theorem writeMem_abort_first (oracle : Nat → List Nat → List Nat)
    (address : Nat) (data : List Nat) (hd : data ≠ [])
    (s : Nat)
    (hs : (oracle address (data.take (min data.length 251)))[3]? = some s)
    (hnz : s ≠ 0) :
    writeMem oracle address data =
      some ([(address, data.take (min data.length 251))], false) := by
  obtain ⟨m, hm⟩ : ∃ m, data.length = m + 1 :=
    ⟨data.length - 1, by have := List.length_pos.mpr hd; omega⟩
  unfold writeMem
  rw [hm, writeMemGo, if_pos (show 0 < data.length from by omega)]
  simp only [List.drop_zero, Nat.sub_zero]
  rw [hs]
  simp [hnz]
  omega

/-- C9 helper: the primary-queue ingestion always ends with the new record
present (pushed after a drain when the queue was full). -/
theorem primaryIngest_mem {α : Type} (maxsize : Nat) (items : List α)
    (r : α) : r ∈ primaryIngest maxsize items r := by
  have h0 : queueFull maxsize ([] : List α) = false := by
    simp [queueFull]; omega
  unfold primaryIngest
  by_cases h : queueFull maxsize items = true
  · rw [if_pos h, if_neg (by simp [h0])]
    exact List.mem_singleton_self r
  · rw [if_neg h, if_neg h]
    exact List.mem_append_right _ (List.mem_singleton_self r)

/-- C2 helper: the callback fires exactly once per entry, in list order;
the indices passed are the entries' 31-bit sequence numbers. -/
theorem callbackIndices_deliver (L E : Nat → Nat) :
    ∀ (es : List (Nat × List Nat)) (last : Nat),
      callbackIndices (deliverEntries L E last es) = es.map entryKey
  | [], last => by simp [deliverEntries, callbackIndices]
  | (tag, payload) :: rest, last => by
      have ih := callbackIndices_deliver L E rest (tag % 0x80000000)
      by_cases h1 : last + 1 < tag % 0x80000000 <;>
        by_cases h2 : tag % 0x80000000 ≤ last <;>
          simp [deliverEntries, callbackIndices, h1, h2, entryKey,
                List.filterMap_append, callbackIndices] at ih ⊢ <;>
            exact ih

/-- C2 helper: `sortEntries` sorts by the 31-bit sequence number. -/
theorem sortEntries_sorted (es : List (Nat × List Nat)) :
    (sortEntries es).Pairwise fun a b => entryKey a ≤ entryKey b := by
  have h := @List.sorted_mergeSort (Nat × List Nat)
      (fun a b => decide (entryKey a ≤ entryKey b))
      (fun a b c hab hbc => by
        simp only [decide_eq_true_eq] at *
        omega)
      (fun a b => by
        simp only [Bool.or_eq_true, decide_eq_true_eq]
        exact Nat.le_total _ _)
      es
  unfold sortEntries
  exact h.imp fun hab => by simpa using hab

/-- C2 helper: an entry whose sequence number is at most the last captured
index produces an old-packet warning and is then still delivered. -/
theorem deliverEntries_old (L E : Nat → Nat) (last tag : Nat)
    (payload : List Nat) (rest : List (Nat × List Nat))
    (hold : tag % 0x80000000 ≤ last) :
    deliverEntries L E last ((tag, payload) :: rest) =
      MonEvent.warnOld (tag % 0x80000000) last ::
        MonEvent.callback (lmpPacketOf L E payload) (Nat.testBit tag 31)
          (tag % 0x80000000) ::
        deliverEntries L E (tag % 0x80000000) rest := by
  rw [deliverEntries, if_neg (by omega), if_pos hold]
  simp

end BrcmBt

/-- C1 (confirmed): every payload returned by a successful `sendHciCommand`
is the data of a Command-Complete event (event_code 0x0E) in the snoop
stream whose bytes [1..3] equal the little-endian encoding of the opcode
the caller sent, regardless of other interleaved packets; it is delivered
through the caller's one-slot rendezvous queue. -/
theorem C1_command_correlation (opcode : Nat) (data : List Nat)
    (stream : List BrcmBt.HCIPacket) (payload : List Nat)
    (h : BrcmBt.sendHciCommand opcode data stream = some payload) :
    BrcmBt.HCIPacket.event 0x0e payload ∈ stream ∧
      (payload.drop 1).take 2 = BrcmBt.p16 opcode :=
  BrcmBt.sendThreadMatch_correlates opcode stream payload h

/-- C1 witness: a concrete stream with an interleaved ACL packet and a
non-matching event; the matching Command-Complete for opcode 0xFC4D is
found and correlates. -/
theorem C1_command_correlation_witness :
    BrcmBt.HCIPacket.event 0x0e [0x01, 0x4d, 0xfc, 0x00, 0xaa] ∈
        [BrcmBt.HCIPacket.acl 3 [1, 2],
         BrcmBt.HCIPacket.event 0x0f [0x00, 0x01, 0x02],
         BrcmBt.HCIPacket.event 0x0e [0x01, 0x4d, 0xfc, 0x00, 0xaa]] ∧
      (([0x01, 0x4d, 0xfc, 0x00, 0xaa] : List Nat).drop 1).take 2 =
        BrcmBt.p16 0xfc4d :=
  C1_command_correlation 0xfc4d [] _ _ (by decide)

/-- C2 counterexample: with `lastCapturedIndex = 5`, a batch containing a
single ring entry with sequence number 3 (≤ 5) still results in a callback
invocation for that entry — the code logs an old-packet warning but does
not skip the entry, so "never passed to the callback" fails. -/
theorem C2_monitor_delivery_counterexample :
    BrcmBt.MonEvent.callback [0] false 3 ∈
      BrcmBt.monitorBatch (fun _ => 1) (fun _ => 0) 5
        ([3, 0, 0, 0] ++ List.replicate 28 0) := by
  have hp : BrcmBt.parseEntries ([3, 0, 0, 0] ++ List.replicate 28 0) =
      [(3, List.replicate 28 0)] := by decide
  unfold BrcmBt.monitorBatch BrcmBt.sortEntries
  rw [hp, List.mergeSort_singleton]
  decide

/-- C2 (amended): in every poll batch the monitor invokes the callback on
each parsed ring entry exactly once, in ascending order of
`counter_tag & 0x7FFFFFFF` (the delivered index sequence is the key map of
the stable sort of the parsed entries, which is a permutation of them);
however, an entry whose sequence number is ≤ the last captured index is
NOT suppressed: it is delivered to the callback after logging an
old-packet warning. -/
theorem C2_monitor_delivery_amended (L E : Nat → Nat) (lastIdx : Nat)
    (data : List Nat) :
    BrcmBt.callbackIndices (BrcmBt.monitorBatch L E lastIdx data) =
        (BrcmBt.sortEntries (BrcmBt.parseEntries data)).map BrcmBt.entryKey ∧
      List.Sorted (· ≤ ·)
        (BrcmBt.callbackIndices (BrcmBt.monitorBatch L E lastIdx data)) ∧
      (BrcmBt.sortEntries (BrcmBt.parseEntries data)).Perm
        (BrcmBt.parseEntries data) ∧
      ∀ tag payload rest last,
        tag % 0x80000000 ≤ last →
        BrcmBt.deliverEntries L E last ((tag, payload) :: rest) =
          BrcmBt.MonEvent.warnOld (tag % 0x80000000) last ::
            BrcmBt.MonEvent.callback (BrcmBt.lmpPacketOf L E payload)
              (Nat.testBit tag 31) (tag % 0x80000000) ::
            BrcmBt.deliverEntries L E (tag % 0x80000000) rest := by
  refine ⟨?_, ?_, ?_, ?_⟩
  · exact BrcmBt.callbackIndices_deliver L E _ lastIdx
  · show List.Pairwise _ _
    rw [show BrcmBt.callbackIndices (BrcmBt.monitorBatch L E lastIdx data) =
          (BrcmBt.sortEntries (BrcmBt.parseEntries data)).map BrcmBt.entryKey
        from BrcmBt.callbackIndices_deliver L E _ lastIdx]
    exact List.pairwise_map.mpr (BrcmBt.sortEntries_sorted _)
  · exact List.mergeSort_perm _ _
  · intro tag payload rest last h
    exact BrcmBt.deliverEntries_old L E last tag payload rest h

/-- C2 witness: the delivered index sequence of a concrete batch is
ascending, and a concrete old entry (sequence 3 ≤ last 5) is delivered
right after its warning. -/
theorem C2_monitor_delivery_amended_witness :
    List.Sorted (· ≤ ·)
        (BrcmBt.callbackIndices (BrcmBt.monitorBatch (fun _ => 1) (fun _ => 0) 5
          ([3, 0, 0, 0] ++ List.replicate 28 0))) ∧
      BrcmBt.deliverEntries (fun _ => 1) (fun _ => 0) 5
          [(3, List.replicate 28 0)] =
        [BrcmBt.MonEvent.warnOld 3 5,
         BrcmBt.MonEvent.callback [0] false 3] := by
  constructor
  · exact (C2_monitor_delivery_amended (fun _ => 1) (fun _ => 0) 5
      ([3, 0, 0, 0] ++ List.replicate 28 0)).2.1
  · rw [(C2_monitor_delivery_amended (fun _ => 1) (fun _ => 0) 5 []).2.2.2
      3 (List.replicate 28 0) [] 5 (by decide)]
    decide

/-- C3 counterexample: the frame actually written for opcode 0xFC4D with a
one-byte parameter is `01 04 00 4d fc 01 aa` — a little-endian u16 payload
length sits between the type byte and the opcode, so the claimed layout
`01 | op_lo op_hi | plen | params` with "nothing else in between" fails. -/
theorem C3_inject_format_counterexample :
    BrcmBt.buildInjectFrame 0xfc4d [0xaa] ≠
      BrcmBt.specInjectFrame 0xfc4d [0xaa] := by
  decide

/-- C3 (amended): every outbound HCI command frame is the byte 0x01, then
the total payload length (`param_len + 3`) as a little-endian u16, then the
opcode as a little-endian u16, a one-byte parameter length, and the
parameter bytes, in that order. -/
theorem C3_inject_format_amended (opcode : Nat) (data : List Nat) :
    BrcmBt.buildInjectFrame opcode data =
      BrcmBt.specInjectFrameAmended opcode data := by
  show BrcmBt.p8 BrcmBt.HCI_CMD ++
      BrcmBt.p16 (BrcmBt.p16 opcode ++ BrcmBt.p8 data.length ++ data).length ++
      (BrcmBt.p16 opcode ++ BrcmBt.p8 data.length ++ data) = _
  rw [show (BrcmBt.p16 opcode ++ BrcmBt.p8 data.length ++ data).length =
        data.length + 3 from by
      simp only [BrcmBt.p16, BrcmBt.p8, List.length_append, List.length_cons,
                 List.length_nil]
      omega]
  rfl

/-- C4 (confirmed): with every chunk response carrying status 0 and a full
data block, `readMem a n` issues exactly the greedy chunk requests —
`⌈n/251⌉` of them, each ≤ 251 bytes — warns about nothing, and returns
exactly `n` bytes. -/
theorem C4_readMem_chunking (oracle : Nat → Nat → List Nat) (a n : Nat)
    (hn : 0 < n)
    (hfull : ∀ addr bs, (oracle addr bs).length = bs + 4)
    (hstatus : ∀ addr bs, (oracle addr bs)[3]? = some 0) :
    ∃ out : List Nat,
      BrcmBt.readMem oracle a n = some (BrcmBt.expectedChunks a n, [], out) ∧
        out.length = n ∧
        (BrcmBt.expectedChunks a n).length = (n + 250) / 251 ∧
        ∀ c ∈ BrcmBt.expectedChunks a n, c.blocksize ≤ 251 := by
  obtain ⟨out, hrun, hlen⟩ :=
    BrcmBt.readMemGo_fullBlocks oracle a n hfull n 0 (by omega)
  simp only [Nat.add_zero, Nat.sub_zero] at hrun hlen
  have hwarn : ((BrcmBt.expectedChunksGo n a n).map
      (BrcmBt.chunkStatus oracle)).filter (fun w => w ≠ 0) = [] := by
    rw [List.filter_eq_nil_iff]
    intro w hw
    obtain ⟨c, _, rfl⟩ := List.mem_map.mp hw
    simp [BrcmBt.chunkStatus, hstatus]
  rw [hwarn] at hrun
  exact ⟨out, hrun, hlen,
         BrcmBt.expectedChunksGo_length n a n le_rfl,
         fun c hc => BrcmBt.expectedChunksGo_blocksize_le n a n c hc⟩

/-- C4 witness: `readMem 0x200000 300` issues exactly two chunk requests,
of sizes 251 and 49, and returns 300 bytes. -/
theorem C4_readMem_chunking_witness :
    (∃ out : List Nat,
        BrcmBt.readMem BrcmBt.oracleFull 0x200000 300 =
          some (BrcmBt.expectedChunks 0x200000 300, [], out) ∧
          out.length = 300 ∧
          (BrcmBt.expectedChunks 0x200000 300).length = (300 + 250) / 251 ∧
          ∀ c ∈ BrcmBt.expectedChunks 0x200000 300, c.blocksize ≤ 251) ∧
      BrcmBt.expectedChunks 0x200000 300 =
        [⟨0x200000, 251⟩, ⟨0x200000 + 251, 49⟩] := by
  constructor
  · exact C4_readMem_chunking BrcmBt.oracleFull 0x200000 300 (by decide)
      (fun addr bs => by
        simp only [BrcmBt.oracleFull, List.length_append, List.length_cons,
                   List.length_nil, List.length_replicate]
        omega)
      (fun addr bs => by simp [BrcmBt.oracleFull])
  · decide

/-- C5 counterexample: with `lastCapturedIndex = 30` and
`currentCapturedIndex = 33` (wrap: positions 30 and 1) over address-tagged
memory, the assembled buffer is NOT the claimed order (end-of-table segment
first): the code concatenates the wrapped beginning segment first. -/
theorem C5_wrap_order_counterexample :
    BrcmBt.pollReadData BrcmBt.memTagged 0xd7700 30 33 ≠
      BrcmBt.specWrapBuffer BrcmBt.memTagged 0xd7700 30 33 := by
  decide

/-- C5 (amended): in a wrap-around poll iteration (fewer than 32 new
entries, new position not greater than the last position), the monitor
reads the end-of-table segment (entries `last_pos + 1 .. 31`) first and
the wrapped beginning segment (entries `0 .. new_pos`) second, but the
assembled byte buffer is the concatenation in the OPPOSITE order:
beginning segment first, end-of-table segment second. -/
theorem C5_wrap_order_amended (mem : Nat → Nat → List Nat)
    (base lastIdx curIdx : Nat)
    (hlt : lastIdx < curIdx) (hfew : curIdx - lastIdx < 32)
    (hpos : curIdx % 32 ≤ lastIdx % 32) :
    BrcmBt.pollReadData mem base lastIdx curIdx =
      mem (base + 4) ((curIdx % 32 + 1) * 32) ++
        mem (base + 4 + (lastIdx % 32 + 1) * 32) ((31 - lastIdx % 32) * 32) := by
  unfold BrcmBt.pollReadData
  rw [if_neg (by omega), if_neg (by omega)]

/-- C5 witness: the amended buffer order at the concrete wrap iteration
`last = 30`, `current = 33`. -/
theorem C5_wrap_order_amended_witness :
    BrcmBt.pollReadData BrcmBt.memTagged 0xd7700 30 33 =
      BrcmBt.memTagged (0xd7700 + 4) ((33 % 32 + 1) * 32) ++
        BrcmBt.memTagged (0xd7700 + 4 + (30 % 32 + 1) * 32)
          ((31 - 30 % 32) * 32) :=
  C5_wrap_order_amended BrcmBt.memTagged 0xd7700 30 33 (by decide) (by decide)
    (by decide)

/-- C6 (confirmed): on a nonzero status byte at offset 3, `readMem` logs a
warning (the nonzero statuses of its chunks, in order) yet still
concatenates each response's bytes from offset 4 on and proceeds through
all remaining chunks (all `⌈n/251⌉` requests are issued and `n` bytes
returned), whereas `writeMem` stops at the first such chunk and returns
`False`, and `launchRam` returns `False`. -/
theorem C6_status_policy
    (ro : Nat → Nat → List Nat) (wo : Nat → List Nat → List Nat)
    (lo : Nat → List Nat) (a n wa la : Nat) (wdata : List Nat)
    (hro : ∀ addr bs, (ro addr bs).length = bs + 4)
    (hwd : wdata ≠ [])
    (s t : Nat)
    (hws : (wo wa (wdata.take (min wdata.length 251)))[3]? = some s)
    (hsnz : s ≠ 0)
    (hls : (lo la)[3]? = some t) (htnz : t ≠ 0) :
    (∃ out : List Nat,
        BrcmBt.readMem ro a n =
          some (BrcmBt.expectedChunks a n,
                ((BrcmBt.expectedChunks a n).map
                    (BrcmBt.chunkStatus ro)).filter (fun w => w ≠ 0),
                out) ∧
          out.length = n) ∧
      BrcmBt.writeMem wo wa wdata =
        some ([(wa, wdata.take (min wdata.length 251))], false) ∧
      BrcmBt.launchRam lo la = some false := by
  refine ⟨?_, BrcmBt.writeMem_abort_first wo wa wdata hwd s hws hsnz, ?_⟩
  · obtain ⟨out, hrun, hlen⟩ :=
      BrcmBt.readMemGo_fullBlocks ro a n hro n 0 (by omega)
    simp only [Nat.add_zero, Nat.sub_zero] at hrun hlen
    exact ⟨out, hrun, hlen⟩
  · unfold BrcmBt.launchRam
    rw [hls]
    simp [htnz]

/-- C6 witness: concrete oracles with statuses 7 / 5 / 9; `readMem` still
returns all 300 bytes over two chunks (warning twice), `writeMem` aborts
after its first chunk, `launchRam` fails. -/
theorem C6_status_policy_witness :
    (∃ out : List Nat,
        BrcmBt.readMem BrcmBt.oracleStatus7 0x200000 300 =
          some (BrcmBt.expectedChunks 0x200000 300,
                ((BrcmBt.expectedChunks 0x200000 300).map
                    (BrcmBt.chunkStatus BrcmBt.oracleStatus7)).filter
                  (fun w => w ≠ 0),
                out) ∧
          out.length = 300) ∧
      BrcmBt.writeMem BrcmBt.writeOracleStatus5 0xd0000 [1, 2, 3] =
        some ([(0xd0000, ([1, 2, 3] : List Nat).take (min 3 251))], false) ∧
      BrcmBt.launchRam BrcmBt.launchOracleStatus9 0xd0000 = some false :=
  C6_status_policy BrcmBt.oracleStatus7 BrcmBt.writeOracleStatus5
    BrcmBt.launchOracleStatus9 0x200000 300 0xd0000 0xd0000 [1, 2, 3]
    (fun addr bs => by
      simp only [BrcmBt.oracleStatus7, List.length_append, List.length_cons,
                 List.length_nil, List.length_replicate]
      omega)
    (by decide) 5 9 (by decide) (by decide) (by decide) (by decide)

/-- C7 (confirmed): for a 4-byte-aligned address and a 4-byte patch,
`patchRom` performs exactly three `writeMem` calls: the patch word at
`0xD0000 + slot*4`, the little-endian value `address >> 2` at
`0x310000 + slot*4`, and the enable word at `0x310204 + (slot/32)*4` with
bit `slot % 32` set — with the allocated slot being 113 — and nothing
else. -/
theorem C7_patchRom_effect (a : Nat) (p : List Nat)
    (hp : p.length = 4) (hal : a % 4 = 0) :
    BrcmBt.patchRom a p =
      some [(0xd0000 + 113 * 4, p),
            (0x310000 + 113 * 4, BrcmBt.p32 (a >>> 2)),
            (0x310204 + (113 / 32) * 4, BrcmBt.p32 0x2ffff)] ∧
      113 / 32 = 3 ∧ Nat.testBit 0x2ffff (113 % 32) = true := by
  refine ⟨?_, by decide, by decide⟩
  have hd : (([0xffffffff, 0xffffffff, 0xffffffff, 0x0000ffff,
      0x00000000] : List Nat).getD (113 / 32) 0 ||| (1 <<< (113 % 32)))
      = 0x2ffff := by decide
  rw [BrcmBt.patchRom, if_neg (by omega), hd]

/-- C7 witness: the spec's concrete scenario
`patch_rom(0x3F3F4, {0x00,0xBD,0xF7,0xAA})`. -/
theorem C7_patchRom_effect_witness :
    BrcmBt.patchRom 0x3F3F4 [0x00, 0xBD, 0xF7, 0xAA] =
      some [(0xd0000 + 113 * 4, [0x00, 0xBD, 0xF7, 0xAA]),
            (0x310000 + 113 * 4, BrcmBt.p32 (0x3F3F4 >>> 2)),
            (0x310204 + (113 / 32) * 4, BrcmBt.p32 0x2ffff)] ∧
      113 / 32 = 3 ∧ Nat.testBit 0x2ffff (113 % 32) = true :=
  C7_patchRom_effect 0x3F3F4 [0x00, 0xBD, 0xF7, 0xAA] (by decide) (by decide)

/-- C8 (confirmed): if the primary queue is full at ingestion, it is
drained completely and then the new record is pushed, leaving exactly the
new record; a full secondary queue instead keeps its contents, drops the
new record, and logs a warning. -/
theorem C8_queue_overflow {α : Type} (psize ssize : Nat)
    (items sec : List α) (r : α)
    (hfullP : BrcmBt.queueFull psize items = true)
    (hfullS : BrcmBt.queueFull ssize sec = true) :
    BrcmBt.primaryIngest psize items r = [r] ∧
      BrcmBt.secondaryIngest ssize sec r = (sec, true) := by
  constructor
  · have h0 : BrcmBt.queueFull psize ([] : List α) = false := by
      simp [BrcmBt.queueFull]
      omega
    unfold BrcmBt.primaryIngest
    rw [if_pos hfullP, if_neg (by simp [h0])]
  · unfold BrcmBt.secondaryIngest
    rw [if_pos hfullS]

/-- C8 witness: capacity-2 queues holding two records each. -/
theorem C8_queue_overflow_witness :
    BrcmBt.primaryIngest 2 [10, 11] 7 = [7] ∧
      BrcmBt.secondaryIngest 2 [20, 21] 7 = ([20, 21], true) :=
  C8_queue_overflow 2 2 [10, 11] [20, 21] 7 (by decide) (by decide)

/-- C9 (confirmed): a record whose `time64` overflows date arithmetic is
still parsed and ingested into the primary queue, with an absent (`none`)
timestamp; the overflow neither aborts processing nor discards the
record. -/
theorem C9_time_overflow (parseHci : List Nat → BrcmBt.HCIPacket)
    (maxsize : Nat)
    (primary : List (BrcmBt.HCIPacket × Nat × Nat × Nat × Nat × Option Int))
    (rec : BrcmBt.SnoopRecord)
    (hovf : BrcmBt.parse_time rec.time64 = none) :
    BrcmBt.recordTime (BrcmBt.processRecord parseHci rec) = none ∧
      BrcmBt.processRecord parseHci rec ∈
        BrcmBt.recvIngest parseHci maxsize primary rec := by
  constructor
  · simp [BrcmBt.recordTime, BrcmBt.processRecord, hovf]
  · exact BrcmBt.primaryIngest_mem maxsize primary _

/-- C9 witness: a record with `time64 = 0` (the btsnoop epoch itself,
378 days before `datetime`'s year-1 minimum, so the `datetime` addition
overflows) flows through ingestion with a `none` timestamp. -/
theorem C9_time_overflow_witness :
    BrcmBt.recordTime (BrcmBt.processRecord
        (fun _ => BrcmBt.HCIPacket.event 0 [])
        ⟨20, 6, 0, 0, 0, [4, 1, 2, 3, 4, 5]⟩) = none ∧
      BrcmBt.processRecord (fun _ => BrcmBt.HCIPacket.event 0 [])
          ⟨20, 6, 0, 0, 0, [4, 1, 2, 3, 4, 5]⟩ ∈
        BrcmBt.recvIngest (fun _ => BrcmBt.HCIPacket.event 0 []) 1000 []
          ⟨20, 6, 0, 0, 0, [4, 1, 2, 3, 4, 5]⟩ :=
  C9_time_overflow (fun _ => BrcmBt.HCIPacket.event 0 []) 1000 []
    ⟨20, 6, 0, 0, 0, [4, 1, 2, 3, 4, 5]⟩ (by decide)

/-- C10 (confirmed): under the precondition that every chunk response
carries at least one data byte beyond its 4-byte header, the `readMem`
loop terminates (fuel `n` suffices); and with responses whose data section
is empty the loop re-issues the identical request forever — no fuel bound
yields a result, because the loop advances only by the number of returned
data bytes. -/
theorem C10_readMem_termination (o1 o2 : Nat → Nat → List Nat) (a n : Nat)
    (hprog : ∀ addr bs, 4 < (o1 addr bs).length)
    (hempty : ∀ addr bs, (o2 addr bs).length = 4)
    (hn : 0 < n) :
    (∃ res, BrcmBt.readMem o1 a n = some res) ∧
      ∀ fuel, BrcmBt.readMemGo o2 a n fuel a 0 = none := by
  constructor
  · obtain ⟨res, h⟩ := BrcmBt.readMemGo_terminates o1 a n hprog n 0 (by omega)
    exact ⟨res, by simpa using h⟩
  · intro fuel
    have h := BrcmBt.readMemGo_stuck o2 a n hempty fuel 0 hn
    simpa using h

/-- C10 witness: a one-data-byte oracle terminates on a 5-byte read; the
header-only oracle never does. -/
theorem C10_readMem_termination_witness :
    (∃ res, BrcmBt.readMem BrcmBt.oracleProgress 0xd7700 5 = some res) ∧
      ∀ fuel, BrcmBt.readMemGo BrcmBt.oracleHeaderOnly 0xd7700 5 fuel 0xd7700 0 = none :=
  C10_readMem_termination BrcmBt.oracleProgress BrcmBt.oracleHeaderOnly
    0xd7700 5
    (fun addr bs => by simp [BrcmBt.oracleProgress])
    (fun addr bs => rfl) (by decide)
